import Mathlib

/-!
Verification development for the heap memory manager in
`Heap Manager V1/HMM.c` (+ `HMM.h`, `HMM_internal.h`).

The C code is shallowly embedded as a state machine over `HMMState`.
Memory is modelled at the level the allocator itself observes it:

* `blocks` is the set of block headers currently written in memory,
  keyed by the byte address of the header.  Reading a header at an
  address where none was ever written yields the all-zero header
  (`sbrk` memory is zero-filled fresh pages), see `getHeader`.
* `mem` holds the payload bytes written by the allocator itself
  (`memset` in `calloc`, `memcpy` in `realloc`).  No other operation
  of the allocator writes payload bytes.
* `brk` is the program break; `hmm_sbrk` moves it and fails exactly
  when the OS limit `brk_limit` would be exceeded, which models
  `sbrk` returning `(void*)-1`.

Machine integers (`size_t`) are modelled as `Nat` with an explicit
`% 2 ^ 64` where the C computation can overflow.  All sizes reaching
`hmm_split_block` satisfy `size ≤ block_size` at every call site of
the C program, so the truncated `Nat` subtraction there agrees with
the `size_t` subtraction.
-/

/-- Constant MAGIC_NUMBER from HMM_internal.h. -/
def MAGIC_NUMBER : Nat := 0xDEADBEEF

/-- Constant IS_FREE_MASK from HMM_internal.h. -/
def IS_FREE_MASK : Nat := 0x1

/-- Constant SIZE_MASK = ~IS_FREE_MASK on 64-bit size_t, that is 2 ^ 64 - 2. -/
def SIZE_MASK : Nat := 18446744073709551614

/-- Value 2 ^ 64, one past the largest size_t value. -/
def SIZE_T_MOD : Nat := 18446744073709551616

/-- Constant HEAP_EXPAND_SIZE from HMM.h (1 MiB). -/
def HEAP_EXPAND_SIZE : Nat := 1024 * 1024

/-- Constant MIN_ALLOC_SIZE from HMM.h. -/
def MIN_ALLOC_SIZE : Nat := 40

/-- Constant ALIGNMENT from HMM.h. -/
def ALIGNMENT : Nat := 8

/-- Size of block_metadata_t on x86-64: 8 (size_and_flags) + 8 (prev)
    + 8 (next) + 4 (magic) padded to 32 bytes. -/
def METADATA_SIZE : Nat := 32

/-- Error codes hmm_error_t from HMM.h. -/
inductive hmm_error_t where
  | HMM_SUCCESS
  | HMM_ERROR_OUT_OF_MEMORY
  | HMM_ERROR_INVALID_POINTER
  | HMM_ERROR_DOUBLE_FREE
  deriving DecidableEq

/-- Allocation algorithms hmm_alloc_algorithm_t from HMM.h. -/
inductive hmm_alloc_algorithm_t where
  | FIRST_FIT
  | BEST_FIT
  | WORST_FIT
  deriving DecidableEq

/-- Header structure block_metadata_t from HMM_internal.h.  The fields
    prev and next are the free-list links; none models a NULL pointer,
    some a models a pointer to the header at byte address a. -/
structure Block where
  size_and_flags : Nat
  prev : Option Nat
  next : Option Nat
  magic : Nat
  deriving DecidableEq

/-- The process-wide allocator state: the static variables of HMM.c
    (`heap_start`, `heap_end`, `free_list_head`, `last_error`,
    `current_algorithm`) together with the memory contents the
    allocator manipulates (`blocks`, `mem`) and the OS break model
    (`brk`, `brk_limit`). -/
structure HMMState where
  heap_start : Option Nat
  heap_end : Nat
  free_list_head : Option Nat
  last_error : hmm_error_t
  current_algorithm : hmm_alloc_algorithm_t
  blocks : List (Nat × Block)
  mem : List (Nat × Nat)
  brk : Nat
  brk_limit : Nat
  deriving DecidableEq

/-- Look up the header entry written at address `a` (first match). -/
def storeGet : List (Nat × Block) → Nat → Option Block
  | [], _ => none
  | (a, b) :: t, x => if a = x then some b else storeGet t x

/-- Overwrite (or create) the header entry at address `a`. -/
def storeSet : List (Nat × Block) → Nat → Block → List (Nat × Block)
  | [], x, b => [(x, b)]
  | (a, c) :: t, x, b => if a = x then (x, b) :: t else (a, c) :: storeSet t x b

/-- The all-zero header: what a header read yields on memory where no
    header was ever written (fresh `sbrk` pages are zero-filled). -/
def zeroBlock : Block :=
  { size_and_flags := 0, prev := none, next := none, magic := 0 }

/-- Dereference a `block_metadata_t*`: the header written at `a`, or
    the all-zero header when none was written there. -/
def getHeader (s : HMMState) (a : Nat) : Block :=
  (storeGet s.blocks a).getD zeroBlock

/-- Write through a `block_metadata_t*`: update the header at `a` by
    `f` (reading zeroed memory first if no header was written there). -/
def updBlock (s : HMMState) (a : Nat) (f : Block → Block) : HMMState :=
  { s with blocks := storeSet s.blocks a (f (getHeader s a)) }

/-- Write one payload byte. -/
def memSet1 : List (Nat × Nat) → Nat → Nat → List (Nat × Nat)
  | [], a, v => [(a, v)]
  | (x, w) :: t, a, v => if x = a then (a, v) :: t else (x, w) :: memSet1 t a v

/-- Read one payload byte (unwritten bytes read as zero). -/
def memGet1 (m : List (Nat × Nat)) (a : Nat) : Nat :=
  match m with
  | [] => 0
  | (x, w) :: t => if x = a then w else memGet1 t a

/-- Zero the header entries whose 32 header bytes lie entirely inside
    `[p, p + n)`; used so that `memset` also acts on header memory. -/
def blocksZeroRange (bs : List (Nat × Block)) (p n : Nat) : List (Nat × Block) :=
  bs.map (fun e => if p ≤ e.1 ∧ e.1 + METADATA_SIZE ≤ p + n then (e.1, zeroBlock) else e)

/-- Byte loop of memset(p, 0, n) on the payload bytes. -/
def memsetZeroGo : List (Nat × Nat) → Nat → Nat → List (Nat × Nat)
  | m, _, 0 => m
  | m, p, n + 1 => memsetZeroGo (memSet1 m p 0) (p + 1) n

/-- Model of memset(p, 0, n): zero-fill n bytes at p (payload bytes, and
    any header fully contained in the range). -/
def memsetZero (s : HMMState) (p n : Nat) : HMMState :=
  { s with mem := memsetZeroGo s.mem p n, blocks := blocksZeroRange s.blocks p n }

/-- Byte loop of memcpy(dst, src, n) on the payload bytes. -/
def memcpyBytesGo : List (Nat × Nat) → Nat → Nat → Nat → List (Nat × Nat)
  | m, _, _, 0 => m
  | m, dst, src, n + 1 => memcpyBytesGo (memSet1 m dst (memGet1 m src)) (dst + 1) (src + 1) n

/-- Model of memcpy(dst, src, n) as used by realloc (copies payload bytes). -/
def memcpyBytes (s : HMMState) (dst src n : Nat) : HMMState :=
  { s with mem := memcpyBytesGo s.mem dst src n }

/-- HMM.c, `hmm_sbrk`: request increment more bytes from the OS.
    Returns the old break on success; on failure returns NULL (none)
    and records HMM_ERROR_OUT_OF_MEMORY. -/
def hmm_sbrk (s : HMMState) (increment : Nat) : Option Nat × HMMState :=
  if s.brk + increment ≤ s.brk_limit then
    (some s.brk, { s with brk := s.brk + increment })
  else
    (none, { s with last_error := hmm_error_t.HMM_ERROR_OUT_OF_MEMORY })

/-- HMM.c, `hmm_init`: expand the heap by HEAP_EXPAND_SIZE, set the
    arena bounds and install the single initial free block. -/
def hmm_init (s : HMMState) : HMMState :=
  match s.heap_start with
  | some _ => s
  | none =>
    match hmm_sbrk s HEAP_EXPAND_SIZE with
    | (none, s1) => s1
    | (some p, s1) =>
      let first : Block :=
        { size_and_flags := (HEAP_EXPAND_SIZE - METADATA_SIZE) ||| IS_FREE_MASK
        , prev := none, next := none, magic := MAGIC_NUMBER }
      { s1 with
          heap_start := some p
        , heap_end := p + HEAP_EXPAND_SIZE
        , blocks := storeSet s1.blocks p first
        , free_list_head := some p }

/-- HMM.c, `hmm_expand_heap`: grow the arena for a request of payload
    size; the new range becomes one free block at the head of
    the free list. -/
def hmm_expand_heap (s : HMMState) (size : Nat) : Option Nat × HMMState :=
  let e0 := ((size + METADATA_SIZE + ALIGNMENT - 1) % SIZE_T_MOD) / ALIGNMENT * ALIGNMENT
  let expand_size := if e0 < HEAP_EXPAND_SIZE then HEAP_EXPAND_SIZE else e0
  match hmm_sbrk s expand_size with
  | (none, s1) => (none, s1)
  | (some new_mem, s1) =>
    let nb : Block :=
      { size_and_flags := (expand_size - METADATA_SIZE) ||| IS_FREE_MASK
      , prev := none, next := s1.free_list_head, magic := MAGIC_NUMBER }
    let s2 := { s1 with blocks := storeSet s1.blocks new_mem nb }
    let s3 :=
      match s2.free_list_head with
      | some h => updBlock s2 h (fun c => { c with prev := some new_mem })
      | none => s2
    (some new_mem,
      { s3 with free_list_head := some new_mem, heap_end := new_mem + expand_size })

/-- HMM.c, `hmm_remove_from_free_list`: detach the block at aBlock
    using its own links, fixing up the neighbours or the head pointer,
    then null its links. -/
def hmm_remove_from_free_list (s : HMMState) (aBlock : Nat) : HMMState :=
  let b := getHeader s aBlock
  let s1 :=
    match b.prev with
    | some p => updBlock s p (fun c => { c with next := b.next })
    | none => { s with free_list_head := b.next }
  let s2 :=
    match b.next with
    | some n => updBlock s1 n (fun c => { c with prev := b.prev })
    | none => s1
  updBlock s2 aBlock (fun c => { c with prev := none, next := none })

/-- HMM.c, `hmm_split_block`: if the block at aBlock is large enough,
    carve a residual free block after the first size payload bytes,
    insert it at the head of the free list, truncate the original block
    to size with the free bit cleared, and remove the original block
    from the free list.  If the remainder is too small, nothing happens
    (note: in that case the block is NOT marked allocated and NOT
    removed from the free list). -/
def hmm_split_block (s : HMMState) (aBlock : Nat) (size : Nat) : HMMState :=
  let block_size := (getHeader s aBlock).size_and_flags &&& SIZE_MASK
  if MIN_ALLOC_SIZE + METADATA_SIZE ≤ block_size - size then
    let new_addr := aBlock + METADATA_SIZE + size
    let nb : Block :=
      { size_and_flags := ((block_size - size - METADATA_SIZE) &&& SIZE_MASK) ||| IS_FREE_MASK
      , prev := none, next := s.free_list_head, magic := MAGIC_NUMBER }
    let s1 := { s with blocks := storeSet s.blocks new_addr nb }
    let s2 :=
      match s1.free_list_head with
      | some h => updBlock s1 h (fun c => { c with prev := some new_addr })
      | none => s1
    let s3 := { s2 with free_list_head := some new_addr }
    let s4 := updBlock s3 aBlock (fun c => { c with size_and_flags := size &&& SIZE_MASK })
    hmm_remove_from_free_list s4 aBlock
  else
    s

/-- Loop body of HMM.c, `hmm_find_free_block`: walk the free list from
    cur, tracking the best candidate so far.  The C loop asserts the
    magic value and the free bit of every node (process-aborting debug
    diagnostics); both assertions hold on every execution considered in
    this file.  Fuel bounds the walk; it is instantiated with one more
    than the number of header entries, which bounds the length of every
    list-shaped free list. -/
def hmm_find_free_block_go (s : HMMState) (size : Nat) :
    Nat → Option Nat → Option Nat → Option Nat
  | _, none, best => best
  | 0, some _, best => best
  | fuel + 1, some a, best =>
    let b := getHeader s a
    let block_size := b.size_and_flags &&& SIZE_MASK
    if size ≤ block_size then
      match s.current_algorithm with
      | hmm_alloc_algorithm_t.FIRST_FIT => some a
      | hmm_alloc_algorithm_t.BEST_FIT =>
        let best' :=
          match best with
          | none => some a
          | some bb =>
            if block_size < ((getHeader s bb).size_and_flags &&& SIZE_MASK) then some a
            else best
        hmm_find_free_block_go s size fuel b.next best'
      | hmm_alloc_algorithm_t.WORST_FIT =>
        let best' :=
          match best with
          | none => some a
          | some bb =>
            if ((getHeader s bb).size_and_flags &&& SIZE_MASK) < block_size then some a
            else best
        hmm_find_free_block_go s size fuel b.next best'
    else
      hmm_find_free_block_go s size fuel b.next best

/-- HMM.c, `hmm_find_free_block`. -/
def hmm_find_free_block (s : HMMState) (size : Nat) : Option Nat :=
  hmm_find_free_block_go s size (s.blocks.length + 1) s.free_list_head none

/-- Loop body of HMM.c, `hmm_coalesce`: scan the free list; merge a
    node that ends exactly at aBlock (absorbing aBlock into it) or
    starts exactly at the end of aBlock (absorbing it into aBlock).
    The successor is captured before any merge, as in the C loop. -/
def hmm_coalesce_go : Nat → HMMState → Nat → Option Nat → HMMState
  | _, s, _, none => s
  | 0, s, _, some _ => s
  | fuel + 1, s, aBlock, some cur =>
    let curb := getHeader s cur
    let nxt := curb.next
    let blk := getHeader s aBlock
    if cur + (curb.size_and_flags &&& SIZE_MASK) + METADATA_SIZE = aBlock then
      let s1 := updBlock s cur (fun c =>
        { c with size_and_flags :=
            ((curb.size_and_flags &&& SIZE_MASK) + (blk.size_and_flags &&& SIZE_MASK) +
              METADATA_SIZE) ||| IS_FREE_MASK })
      let s2 := hmm_remove_from_free_list s1 aBlock
      hmm_coalesce_go fuel s2 cur nxt
    else if aBlock + (blk.size_and_flags &&& SIZE_MASK) + METADATA_SIZE = cur then
      let s1 := updBlock s aBlock (fun c =>
        { c with size_and_flags :=
            ((blk.size_and_flags &&& SIZE_MASK) + (curb.size_and_flags &&& SIZE_MASK) +
              METADATA_SIZE) ||| IS_FREE_MASK })
      let s2 := hmm_remove_from_free_list s1 cur
      hmm_coalesce_go fuel s2 aBlock nxt
    else
      hmm_coalesce_go fuel s aBlock nxt

/-- HMM.c, `hmm_coalesce`. -/
def hmm_coalesce (s : HMMState) (aBlock : Nat) : HMMState :=
  hmm_coalesce_go (s.blocks.length + 1) s aBlock s.free_list_head

/-- HMM.c, `hmm_internal_alloc`: reject size 0, normalize the size to
    the alignment and the minimum floor, find or grow a free block,
    split it, and return the payload address block + 1. -/
def hmm_internal_alloc (s : HMMState) (size0 : Nat) : Option Nat × HMMState :=
  if size0 = 0 then (none, s)
  else
    let size1 := ((size0 + ALIGNMENT - 1) % SIZE_T_MOD) / ALIGNMENT * ALIGNMENT
    let size := if size1 < MIN_ALLOC_SIZE then MIN_ALLOC_SIZE else size1
    match hmm_find_free_block s size with
    | some aBlock =>
      (some (aBlock + METADATA_SIZE), hmm_split_block s aBlock size)
    | none =>
      match hmm_expand_heap s size with
      | (none, s1) => (none, s1)
      | (some aBlock, s1) =>
        (some (aBlock + METADATA_SIZE), hmm_split_block s1 aBlock size)

/-- HMM.c, `hmm_internal_free`.  Note that the C function casts the
    received pointer itself to `block_metadata_t*` (its comment claims
    the `- 1` was already performed by the caller, but `HmmFree` passes
    the payload pointer unchanged). -/
def hmm_internal_free (s : HMMState) (ptr : Nat) : HMMState :=
  if ptr = 0 then s
  else
    let aBlock := ptr
    let b := getHeader s aBlock
    if b.magic ≠ MAGIC_NUMBER then
      { s with last_error := hmm_error_t.HMM_ERROR_INVALID_POINTER }
    else if b.size_and_flags &&& IS_FREE_MASK ≠ 0 then
      { s with last_error := hmm_error_t.HMM_ERROR_DOUBLE_FREE }
    else
      let s1 := updBlock s aBlock (fun c =>
        { c with size_and_flags := c.size_and_flags ||| IS_FREE_MASK })
      let s2 := updBlock s1 aBlock (fun c =>
        { c with next := s1.free_list_head, prev := none })
      let s3 :=
        match s2.free_list_head with
        | some h => updBlock s2 h (fun c => { c with prev := some aBlock })
        | none => s2
      let s4 := { s3 with free_list_head := some aBlock }
      hmm_coalesce s4 aBlock

/-- HMM.c, `HmmAlloc`: delegate to hmm_internal_alloc; on failure set
    last_error to HMM_ERROR_OUT_OF_MEMORY. -/
def HmmAlloc (s : HMMState) (size : Nat) : Option Nat × HMMState :=
  match hmm_internal_alloc s size with
  | (none, s1) => (none, { s1 with last_error := hmm_error_t.HMM_ERROR_OUT_OF_MEMORY })
  | (some p, s1) => (some p, s1)

/-- HMM.c, `HmmFree`: validate the header at ptr - 1, reject a bad
    magic value or an already-free block, then call
    hmm_internal_free(ptr) (with the payload pointer). -/
def HmmFree (s : HMMState) (ptr : Nat) : HMMState :=
  if ptr = 0 then s
  else
    let aBlock := ptr - METADATA_SIZE
    let b := getHeader s aBlock
    if b.magic ≠ MAGIC_NUMBER then
      { s with last_error := hmm_error_t.HMM_ERROR_INVALID_POINTER }
    else if b.size_and_flags &&& IS_FREE_MASK ≠ 0 then
      { s with last_error := hmm_error_t.HMM_ERROR_DOUBLE_FREE }
    else
      hmm_internal_free s ptr

/-- HMM.c, `hmm_get_last_error`. -/
def hmm_get_last_error (s : HMMState) : hmm_error_t :=
  s.last_error

/-- HMM.c, `hmm_set_allocation_algorithm`. -/
def hmm_set_allocation_algorithm (s : HMMState) (algorithm : hmm_alloc_algorithm_t) :
    HMMState :=
  { s with current_algorithm := algorithm }

/-- HMM.c, `malloc`: initialize the heap on first use, then HmmAlloc. -/
def malloc (s : HMMState) (size : Nat) : Option Nat × HMMState :=
  HmmAlloc (match s.heap_start with | none => hmm_init s | some _ => s) size

/-- HMM.c, `free`. -/
def free (s : HMMState) (ptr : Nat) : HMMState :=
  HmmFree s ptr

/-- HMM.c, `calloc`: detect nmemb * size overflow of size_t
    (the builtin overflow check reports exactly the products that reach
    2 ^ 64);
    on overflow record out-of-memory and return NULL, otherwise
    allocate and zero-fill. -/
def calloc (s : HMMState) (nmemb size : Nat) : Option Nat × HMMState :=
  if SIZE_T_MOD ≤ nmemb * size then
    (none, { s with last_error := hmm_error_t.HMM_ERROR_OUT_OF_MEMORY })
  else
    let total_size := nmemb * size
    match malloc s total_size with
    | (none, s1) => (none, s1)
    | (some p, s1) => (some p, memsetZero s1 p total_size)

/-- HMM.c, `realloc`: NULL behaves as malloc; size 0 behaves as
    free; a size within the current payload splits in place and
    returns the same pointer; otherwise allocate a new block, copy
    old_size bytes, free the old block.  The shrink path passes the
    raw requested size to hmm_split_block without any normalization. -/
def realloc (s : HMMState) (ptr : Nat) (size : Nat) : Option Nat × HMMState :=
  if ptr = 0 then malloc s size
  else if size = 0 then (none, free s ptr)
  else
    let aBlock := ptr - METADATA_SIZE
    let old_size := (getHeader s aBlock).size_and_flags &&& SIZE_MASK
    if size ≤ old_size then
      (some ptr, hmm_split_block s aBlock size)
    else
      match malloc s size with
      | (none, s1) => (none, s1)
      | (some new_ptr, s1) =>
        let s2 := memcpyBytes s1 new_ptr ptr old_size
        (some new_ptr, free s2 ptr)

/-- A fresh process state with an OS break limit of the given bytes. -/
def initialState (limit : Nat) : HMMState :=
  { heap_start := none, heap_end := 0, free_list_head := none
  , last_error := hmm_error_t.HMM_SUCCESS
  , current_algorithm := hmm_alloc_algorithm_t.FIRST_FIT
  , blocks := [], mem := [], brk := 0, brk_limit := limit }

/-- The packed size-and-flags word of the header at the given address. -/
def safAt (s : HMMState) (a : Nat) : Nat :=
  (getHeader s a).size_and_flags

/-!
Shared lemmas about the failure paths of the allocator.
-/

/-- Allocating zero bytes: `hmm_internal_alloc` returns NULL without
    touching the state, and `HmmAlloc` then records out-of-memory. -/
theorem HmmAlloc_zero (s : HMMState) :
    HmmAlloc s 0 = (none, { s with last_error := hmm_error_t.HMM_ERROR_OUT_OF_MEMORY }) :=
  rfl

/-- Value of `malloc` at size 0: NULL, with out-of-memory recorded on
    top of the (possibly lazily initialized) state. -/
theorem malloc_zero (s : HMMState) :
    malloc s 0 =
      (none, { (match s.heap_start with | none => hmm_init s | some _ => s) with
        last_error := hmm_error_t.HMM_ERROR_OUT_OF_MEMORY }) := by
  unfold malloc
  exact HmmAlloc_zero _

/-- Components of `malloc` at size 0: the result is NULL and the last
    error is out-of-memory, from any starting state. -/
theorem malloc_zero_parts (s : HMMState) :
    (malloc s 0).1 = none ∧
    (malloc s 0).2.last_error = hmm_error_t.HMM_ERROR_OUT_OF_MEMORY := by
  rw [malloc_zero]
  exact ⟨rfl, rfl⟩

/-- When `hmm_sbrk` fails it only records out-of-memory. -/
theorem hmm_sbrk_fail (s : HMMState) (n : Nat) (s1 : HMMState)
    (h : hmm_sbrk s n = (none, s1)) :
    s1 = { s with last_error := hmm_error_t.HMM_ERROR_OUT_OF_MEMORY } := by
  unfold hmm_sbrk at h
  split at h
  · simp at h
  · simp at h
    exact h.symm

/-- When `hmm_expand_heap` fails it only records out-of-memory. -/
theorem hmm_expand_heap_fail (s : HMMState) (n : Nat) (s1 : HMMState)
    (h : hmm_expand_heap s n = (none, s1)) :
    s1 = { s with last_error := hmm_error_t.HMM_ERROR_OUT_OF_MEMORY } := by
  simp only [hmm_expand_heap] at h
  split at h
  next heq => simp at h; exact h ▸ hmm_sbrk_fail _ _ _ heq
  next heq => simp at h

/-- When `hmm_internal_alloc` fails, the state is unchanged (size 0) or
    has only out-of-memory recorded (failed heap expansion). -/
theorem hmm_internal_alloc_fail (s : HMMState) (n : Nat) (s1 : HMMState)
    (h : hmm_internal_alloc s n = (none, s1)) :
    s1 = s ∨ s1 = { s with last_error := hmm_error_t.HMM_ERROR_OUT_OF_MEMORY } := by
  simp only [hmm_internal_alloc] at h
  split at h
  · simp at h; exact Or.inl h.symm
  · split at h
    · simp at h
    · split at h
      next heq => simp at h; exact Or.inr (h ▸ hmm_expand_heap_fail _ _ _ heq)
      next heq => simp at h

/-- When `HmmAlloc` fails, the resulting state is the starting state
    with only the last error set to out-of-memory. -/
theorem HmmAlloc_fail (s : HMMState) (n : Nat) (s1 : HMMState)
    (h : HmmAlloc s n = (none, s1)) :
    s1 = { s with last_error := hmm_error_t.HMM_ERROR_OUT_OF_MEMORY } := by
  unfold HmmAlloc at h
  split at h
  next s2 heq =>
    simp at h
    rcases hmm_internal_alloc_fail _ _ _ heq with h2 | h2 <;> rw [← h, h2]
  next p s2 heq => simp at h

/-- When `malloc` fails on an already initialized heap, the resulting
    state is the starting state with only out-of-memory recorded. -/
theorem malloc_fail (s : HMMState) (n : Nat) (q : Nat) (s1 : HMMState)
    (hq : s.heap_start = some q)
    (h : malloc s n = (none, s1)) :
    s1 = { s with last_error := hmm_error_t.HMM_ERROR_OUT_OF_MEMORY } := by
  unfold malloc at h
  rw [hq] at h
  exact HmmAlloc_fail _ _ _ h

/-!
Concrete execution traces used by the claims.  All traces start from a
fresh process.  sBig has an effectively unlimited OS break; the C8
witness trace uses a break limit that admits exactly the initial arena.
-/

/-- A fresh process whose OS break limit is far beyond every request
    made in the traces below. -/
def sBig : HMMState := initialState 100000000

/-- The state right after an explicit `hmm_init` call. -/
def sInit : HMMState := hmm_init sBig

/-- Trace step: allocate 1048472 bytes (the whole initial arena minus
    one header and the 40-byte minimum residual); the split leaves a
    40-byte free residual block at address 1048504. -/
def allocA : Option Nat × HMMState := malloc sBig 1048472

/-- Trace step: allocate 40 bytes; first fit selects the 40-byte
    residual, the remainder 0 is below the split threshold, so
    `hmm_split_block` does nothing: the block is handed out while it
    still carries the free bit and still sits on the free list. -/
def allocB : Option Nat × HMMState := malloc allocA.2 40

/-- Trace step: allocate 40 bytes again; the free list still contains
    the block just handed out, so first fit returns it a second time. -/
def allocC : Option Nat × HMMState := malloc allocB.2 40

/-- Trace step (C4): allocate 8 bytes from a fresh heap (normalized to
    40; leaves a free residual of 1048472 at address 72). -/
def c4alloc1 : Option Nat × HMMState := malloc sBig 8

/-- Trace step (C4): allocate 1048480 bytes; no free block fits, the
    arena grows by 1 MiB at address 1048576, and the new block (payload
    1048544) is handed out through the no-split path, so it stays free
    and listed — address-adjacent to the free residual at 72. -/
def c4alloc2 : Option Nat × HMMState := malloc c4alloc1.2 1048480

/-- Trace step (C4): release the first allocation.  The release
    completes (it records an error and changes nothing else), leaving
    the two adjacent free blocks at 72 and 1048576 in place. -/
def c4rel : HMMState := free c4alloc2.2 32

/-- Trace step (C5): allocate 104 bytes from a fresh heap. -/
def c5alloc : Option Nat × HMMState := malloc sBig 104

/-- Trace step (C5): shrink the 104-byte block to 1 byte in place;
    `realloc` passes the raw size 1 to `hmm_split_block`. -/
def c5res : Option Nat × HMMState := realloc c5alloc.2 32 1

/-- Trace step (C6): allocate 524232 bytes from a fresh heap. -/
def c6a : Option Nat × HMMState := malloc sBig 524232

/-- Trace step (C6): allocate 524208 bytes; the resulting block is
    address-adjacent to the first one (it starts at 524264, exactly at
    the end of the first block), leaving a 40-byte free residual. -/
def c6b : Option Nat × HMMState := malloc c6a.2 524208

/-- Trace step (C6): release the first of the two adjacent
    allocations. -/
def c6rel1 : HMMState := free c6b.2 32

/-- Trace step (C6): release the second of the two adjacent
    allocations. -/
def c6rel2 : HMMState := free c6rel1 524296

/-- Trace step (C6): request 1048472 bytes, a size that fits only in
    the combined span of the two released allocations. -/
def c6req : Option Nat × HMMState := malloc c6rel2 1048472

/-- Trace step (C9): first release of the pointer obtained from
    `c4alloc1` (payload address 32). -/
def c9rel1 : HMMState := free c4alloc1.2 32

/-- Trace step (C9): second release of the same pointer. -/
def c9rel2 : HMMState := free c9rel1 32

/-- Witness state for C8: a fresh process whose OS break limit admits
    exactly the initial 1 MiB arena, after allocating 8 bytes. -/
def c8state : HMMState := (malloc (initialState 1048576) 8).2

/-- The header of the 8-byte (normalized to 40) allocation living at
    address 0 of `c8state`. -/
def c8block : Block :=
  { size_and_flags := 40, prev := none, next := none, magic := MAGIC_NUMBER }

/-!
The claims.
-/

/-- Claim C1, counterexample to the claim as stated.  On a freshly
    initialized allocator (last error Success), allocate(0) does return
    NULL, but the last-error state is NOT unchanged: HmmAlloc sets it
    to out-of-memory on every NULL result, including the size-0
    rejection. -/
theorem C1_allocate_zero_changes_error :
    sInit.last_error = hmm_error_t.HMM_SUCCESS ∧
    (malloc sInit 0).1 = none ∧
    (malloc sInit 0).2.last_error = hmm_error_t.HMM_ERROR_OUT_OF_MEMORY ∧
    (malloc sInit 0).2.last_error ≠ sInit.last_error := by decide

/-- Claim C1, amended: for every state, allocate(0) returns NULL and
    records OutOfMemory as the last error. -/
theorem C1_allocate_zero_records_out_of_memory (s : HMMState) :
    (malloc s 0).1 = none ∧
    (malloc s 0).2.last_error = hmm_error_t.HMM_ERROR_OUT_OF_MEMORY :=
  malloc_zero_parts s

/-- Claim C2, exhibited on the code: after allocate(1048472) from a
    fresh heap, two consecutive successful allocate(40) calls return
    the same payload address 1048536, so the two live allocations
    overlap completely.  The no-split path of hmm_split_block leaves
    the handed-out block free and on the free list, and first fit
    returns it again. -/
theorem C2_overlapping_live_allocations :
    allocA.1 = some 32 ∧
    allocB.1 = some 1048536 ∧
    allocC.1 = some 1048536 ∧
    safAt allocC.2 1048504 &&& SIZE_MASK = 40 := by decide

/-- Claim C3, exhibited on the code: the block whose payload pointer
    was just returned by allocate still has its free bit set and is
    still the head of the free list. -/
theorem C3_returned_block_still_free_and_listed :
    allocB.1 = some 1048536 ∧
    safAt allocB.2 1048504 &&& IS_FREE_MASK = 1 ∧
    allocB.2.free_list_head = some 1048504 := by decide

/-- Claim C4, exhibited on the code: after the release of the first
    allocation completes, the blocks at addresses 72 and 1048576 are
    address-adjacent (72 + payload + header = 1048576) and both carry
    the free bit. -/
theorem C4_adjacent_free_blocks_after_release :
    c4alloc1.1 = some 32 ∧
    c4alloc2.1 = some 1048608 ∧
    safAt c4rel 72 = 1048473 ∧
    safAt c4rel 1048576 = 1048545 ∧
    1048473 &&& IS_FREE_MASK = 1 ∧
    1048545 &&& IS_FREE_MASK = 1 ∧
    72 + (1048473 &&& SIZE_MASK) + METADATA_SIZE = 1048576 := by decide

/-- Claim C5, exhibited on the code: resize(p, 1) on a 104-byte block
    truncates the block to payload size 0 (1 AND SIZE_MASK), below the
    40-byte floor, and creates a free block at the misaligned address
    33 with payload size 70, which is not a multiple of the 8-byte
    alignment. -/
theorem C5_resize_shrink_breaks_alignment_and_floor :
    c5alloc.1 = some 32 ∧
    c5res.1 = some 32 ∧
    safAt c5res.2 0 &&& SIZE_MASK = 0 ∧
    safAt c5res.2 0 &&& SIZE_MASK < MIN_ALLOC_SIZE ∧
    safAt c5res.2 33 &&& SIZE_MASK = 70 ∧
    ¬ (safAt c5res.2 33 &&& SIZE_MASK) % ALIGNMENT = 0 ∧
    safAt c5res.2 33 &&& IS_FREE_MASK = 1 := by decide

/-- Claim C6, exhibited on the code: the two allocations at headers 0
    and 524264 are address-adjacent; releasing both (first 32, then
    524296) changes no header at all — both blocks still have the free
    bit clear, nothing merges — and the subsequent request of 1048472
    bytes (the combined span) triggers arena growth: heap_end moves
    from 1048576 to 2097152. -/
theorem C6_adjacent_releases_do_not_merge :
    c6a.1 = some 32 ∧
    c6b.1 = some 524296 ∧
    0 + METADATA_SIZE + (safAt c6b.2 0 &&& SIZE_MASK) = 524264 ∧
    safAt c6rel2 0 = 524232 ∧
    safAt c6rel2 524264 = 524208 ∧
    524232 &&& IS_FREE_MASK = 0 ∧
    524208 &&& IS_FREE_MASK = 0 ∧
    c6rel2.blocks = c6b.2.blocks ∧
    c6rel2.heap_end = 1048576 ∧
    c6req.1 = some 1048608 ∧
    c6req.2.heap_end = 2097152 := by decide

/-- Claim C7: whenever the product count times size does not fit in the
    64-bit size type, zero_allocate returns NULL and the state is the
    starting state with only OutOfMemory recorded — in particular no
    block is allocated from the wrapped-around product. -/
theorem C7_calloc_overflow_rejected (s : HMMState) (nmemb size : Nat)
    (hov : SIZE_T_MOD ≤ nmemb * size) :
    calloc s nmemb size =
      (none, { s with last_error := hmm_error_t.HMM_ERROR_OUT_OF_MEMORY }) := by
  unfold calloc
  rw [if_pos hov]

/-- Claim C7, witness: the overflow theorem applied at count = size =
    2 ^ 32 on a fresh process state. -/
theorem C7_calloc_overflow_rejected_witness :
    SIZE_T_MOD ≤ 4294967296 * 4294967296 ∧
    calloc sBig 4294967296 4294967296 =
      (none, { sBig with last_error := hmm_error_t.HMM_ERROR_OUT_OF_MEMORY }) :=
  ⟨by decide, C7_calloc_overflow_rejected sBig 4294967296 4294967296 (by decide)⟩

/-- Claim C8: on an initialized heap, for a live (allocated, free bit
    clear) block of payload size below newSize, if the internal
    allocation performed by resize fails, then resize returns NULL and
    the state is unchanged except for the recorded OutOfMemory: all
    headers and all payload bytes are exactly as before, so the
    original block is still present, unchanged and still allocated. -/
theorem C8_failed_resize_leaves_original_untouched
    (s : HMMState) (a newSize q : Nat) (b : Block)
    (hq : s.heap_start = some q)
    (hb : storeGet s.blocks a = some b)
    (halloc : b.size_and_flags &&& IS_FREE_MASK = 0)
    (hgrow : b.size_and_flags &&& SIZE_MASK < newSize)
    (hfail : (malloc s newSize).1 = none) :
    realloc s (a + METADATA_SIZE) newSize =
      (none, { s with last_error := hmm_error_t.HMM_ERROR_OUT_OF_MEMORY }) ∧
    storeGet (realloc s (a + METADATA_SIZE) newSize).2.blocks a = some b ∧
    (getHeader (realloc s (a + METADATA_SIZE) newSize).2 a).size_and_flags
        &&& IS_FREE_MASK = 0 := by
  have hptr : a + METADATA_SIZE ≠ 0 := by simp [METADATA_SIZE]
  have hns : newSize ≠ 0 := by omega
  have hsub : a + METADATA_SIZE - METADATA_SIZE = a := by omega
  have hH : getHeader s a = b := by simp [getHeader, hb]
  have hmain : realloc s (a + METADATA_SIZE) newSize =
      (none, { s with last_error := hmm_error_t.HMM_ERROR_OUT_OF_MEMORY }) := by
    simp only [realloc]
    rw [if_neg hptr, if_neg hns, hsub, hH, if_neg (by omega)]
    cases hm : malloc s newSize with
    | mk r s1 =>
      cases r with
      | none =>
        have h2 := malloc_fail s newSize q s1 hq hm
        subst h2
        rfl
      | some p => rw [hm] at hfail; simp at hfail
  refine ⟨hmain, ?_, ?_⟩
  · rw [hmain]
    exact hb
  · rw [hmain]
    simpa [getHeader, hb] using halloc

/-- Claim C8, witness: the theorem applied to the 40-byte block at
    header address 0 of c8state, with newSize 2000000; the growth
    request exceeds the OS break limit, so the inner allocation
    fails. -/
theorem C8_failed_resize_leaves_original_untouched_witness :
    (c8state.heap_start = some 0 ∧
     storeGet c8state.blocks 0 = some c8block ∧
     c8block.size_and_flags &&& IS_FREE_MASK = 0 ∧
     c8block.size_and_flags &&& SIZE_MASK < 2000000 ∧
     (malloc c8state 2000000).1 = none) ∧
    (realloc c8state (0 + METADATA_SIZE) 2000000 =
        (none, { c8state with last_error := hmm_error_t.HMM_ERROR_OUT_OF_MEMORY }) ∧
     storeGet (realloc c8state (0 + METADATA_SIZE) 2000000).2.blocks 0 = some c8block ∧
     (getHeader (realloc c8state (0 + METADATA_SIZE) 2000000).2 0).size_and_flags
         &&& IS_FREE_MASK = 0) :=
  ⟨⟨by decide, by decide, by decide, by decide, by decide⟩,
   C8_failed_resize_leaves_original_untouched c8state 0 2000000 0 c8block
     (by decide) (by decide) (by decide) (by decide) (by decide)⟩

/-- Claim C9, exhibited on the code: for the pointer 32 returned by
    allocate(8), the first release records InvalidPointer (HmmFree
    passes the payload pointer to hmm_internal_free, whose magic check
    reads payload bytes and fails), changes no header and no payload
    byte, and leaves the free bit clear; the second release again
    records InvalidPointer — never DoubleFree — and again changes
    nothing. -/
theorem C9_second_release_records_invalid_pointer_not_double_free :
    c4alloc1.1 = some 32 ∧
    c9rel1.last_error = hmm_error_t.HMM_ERROR_INVALID_POINTER ∧
    safAt c9rel1 0 &&& IS_FREE_MASK = 0 ∧
    c9rel1.blocks = c4alloc1.2.blocks ∧
    c9rel2.last_error = hmm_error_t.HMM_ERROR_INVALID_POINTER ∧
    ¬ c9rel2.last_error = hmm_error_t.HMM_ERROR_DOUBLE_FREE ∧
    c9rel2.blocks = c4alloc1.2.blocks ∧
    c9rel2.mem = c4alloc1.2.mem := by decide

/-- Claim C10: for every state and every n, zero_allocate(0, n) and
    zero_allocate(n, 0) both return NULL and record OutOfMemory (the
    zero-byte total is rejected inside allocate, which then sets the
    error). -/
theorem C10_calloc_zero_count_or_size (s : HMMState) (n : Nat) :
    (calloc s 0 n).1 = none ∧
    (calloc s 0 n).2.last_error = hmm_error_t.HMM_ERROR_OUT_OF_MEMORY ∧
    (calloc s n 0).1 = none ∧
    (calloc s n 0).2.last_error = hmm_error_t.HMM_ERROR_OUT_OF_MEMORY := by
  have h1 : ¬ (SIZE_T_MOD ≤ 0 * n) := by simp [SIZE_T_MOD]
  have h2 : ¬ (SIZE_T_MOD ≤ n * 0) := by simp [SIZE_T_MOD]
  unfold calloc
  rw [if_neg h1, if_neg h2, Nat.zero_mul, Nat.mul_zero]
  cases hm : malloc s 0 with
  | mk r s1 =>
    have h3 := malloc_zero_parts s
    rw [hm] at h3
    cases r with
    | none => refine ⟨?_, ?_, ?_, ?_⟩ <;> simp only [hm] <;> first | rfl | exact h3.2
    | some p => simp at h3
